import Mathlib

/-!
Verification of the archive-repackaging engine of `make_wheels.py` (git-pypi).

The Python source is shallowly embedded: byte strings become `List Nat`,
`zipfile.ZipInfo` becomes a record of the fields the script touches, the
insertion-ordered `contents` dict becomes an association list with Python
dict-update semantics (`dictInsert`), and the final zip archive becomes the
ordered list of written entry records (`WrittenEntry`) — the byte layout of a
zip file is a function of that ordered record list, so two archives are
byte-identical exactly when their record lists are equal.
-/

/-- Raw bytes, one `Nat` per byte. -/
abbrev Bytes := List Nat

/-- Python `str.startswith(pre)`. -/
def pyStartsWith (s pre : String) : Bool := pre.data.isPrefixOf s.data

/-- Python `str.endswith(suf)`. -/
def pyEndsWith (s suf : String) : Bool :=
  suf.data.reverse.isPrefixOf s.data.reverse

/-- Python `str.lower()` on the ASCII strings handled here. -/
def pyLower (s : String) : String := ⟨s.data.map Char.toLower⟩

/-- Split a character list at every character satisfying `p`, keeping empty
pieces (the piece separator is consumed). -/
def splitChars (p : Char → Bool) : List Char → List (List Char)
  | [] => [[]]
  | c :: rest =>
      match splitChars p rest with
      | [] => [[]]
      | h :: t => if p c then [] :: h :: t else (c :: h) :: t

/-- Python `str.split(sep)` for a one-character separator: split at every
occurrence, keeping empty pieces. -/
def pySplitChar (sep : Char) (s : String) : List String :=
  (splitChars (fun c => c == sep) s.data).map String.mk

/-- Python `str.split()` with no separator: split on whitespace runs,
discarding empty pieces. -/
def pySplit (s : String) : List String :=
  ((splitChars Char.isWhitespace s.data).map String.mk).filter (· ≠ "")

/-- Bytes of a string.  Models `str.encode("utf-8")` / Python byte literals for
the ASCII-only texts the script synthesizes (one byte per character). -/
def strBytes (s : String) : Bytes := s.data.map Char.toNat

/-- The fields of `zipfile.ZipInfo` that `make_wheels.py` reads or writes
before handing the entry to the writer. -/
structure ZipInfo where
  filename : String
  external_attr : Nat := 0
  file_size : Nat := 0
deriving DecidableEq, Repr

/-- The first argument of `writestr`: a `ZipInfo` descriptor or an arcname
string (`zinfo_or_arcname` in the source). -/
inductive ZinfoOrArcname where
  | info (zi : ZipInfo)
  | arcname (s : String)
deriving DecidableEq, Repr

/-- The date_time 6-tuple of a zip entry. -/
abbrev DateTime6 := Nat × Nat × Nat × Nat × Nat × Nat

/-- One entry as actually written into the output zip archive: the metadata
fields fixed by `ReproducibleWheelFile.writestr` plus the payload. -/
structure WrittenEntry where
  filename : String
  external_attr : Nat
  compress_type : Nat
  date_time : DateTime6
  create_system : Nat
  data : Bytes
deriving DecidableEq, Repr

/-- Constant `zipfile.ZIP_DEFLATED`. -/
def ZIP_DEFLATED : Nat := 8

/-- Constant `stat.S_IFREG` (regular-file type flag), octal 100000. -/
def S_IFREG : Nat := 0o100000

/-- Method `ReproducibleWheelFile.writestr` (source lines 70-84): for a string
arcname it builds a `ZipInfo` with default attribute `0o644 << 16`, or
`0o664 << 16` when the name ends in `.dist-info/RECORD`; in both cases it then
pins `compress_type` to deflate, `date_time` to the 1980-01-01 sentinel and
`create_system` to 3 and writes the data. -/
def writestr (z : ZinfoOrArcname) (data : Bytes) : WrittenEntry :=
  let zinfo : ZipInfo :=
    match z with
    | .info zi => zi
    | .arcname s =>
        { filename := s
          file_size := data.length
          external_attr :=
            if pyEndsWith s ".dist-info/RECORD" then 0o664 <<< 16 else 0o644 <<< 16 }
  { filename := zinfo.filename
    external_attr := zinfo.external_attr
    compress_type := ZIP_DEFLATED
    date_time := (1980, 1, 1, 0, 0, 0)
    create_system := 3
    data := data }

/-- A key of the `contents` dict in `write_git_wheel` / `write_wheel`.  The
source uses either a `str` (compared by value) or a freshly constructed
`ZipInfo` object; `ZipInfo` defines no `__eq__`, so dict lookup compares those
keys by object identity — modelled by the `id` tag, which the build assigns a
fresh value per constructed descriptor. -/
inductive WheelKey where
  | str (s : String)
  | info (id : Nat) (zi : ZipInfo)
deriving DecidableEq, Repr

/-- The arcname-or-descriptor actually passed to `writestr` for a key. -/
def WheelKey.toZ : WheelKey → ZinfoOrArcname
  | .str s => .arcname s
  | .info _ zi => .info zi

/-- The virtual path a key maps to in the output archive. -/
def keyFilename : WheelKey → String
  | .str s => s
  | .info _ zi => zi.filename

/-- Python dict update `d[k] = v`: if an equal key is present its value is
replaced in place, otherwise the pair is appended (insertion order kept). -/
def dictInsert (d : List (WheelKey × Bytes)) (k : WheelKey) (v : Bytes) :
    List (WheelKey × Bytes) :=
  if d.any (fun kv => kv.1 == k) then
    d.map (fun kv => if kv.1 == k then (k, v) else kv)
  else
    d ++ [(k, v)]

/-- Function `write_wheel_file` (source lines 101-106): writes every `(key, data)` item
of the contents dict, in order, through `ReproducibleWheelFile.writestr`. -/
def write_wheel_file (contents : List (WheelKey × Bytes)) : List WrittenEntry :=
  contents.map fun kv => writestr kv.1.toZ kv.2

/-- Function `make_message` (source lines 87-98), serialized: each header as a
`Name: value` line (list-valued headers repeated in order), a blank separator
line, then the payload. -/
def make_message (headers : List (String × List String)) (payload : String) :
    String :=
  String.join (headers.map fun h =>
    String.join (h.2.map fun v => h.1 ++ ": " ++ v ++ "\n")) ++ "\n" ++ payload

/-- The tag-expansion comprehension of `write_wheel` (source lines 116-121)
on the three dash-separated fields: `z` (platform) is the outermost loop,
`y` (abi) middle, `x` (python tag) innermost. -/
def expanded_tags_of (pytag abitag platformtag : String) : List String :=
  (pySplitChar '.' platformtag).flatMap fun z =>
    (pySplitChar '.' abitag).flatMap fun y =>
      (pySplitChar '.' pytag).map fun x => x ++ "-" ++ y ++ "-" ++ z

/-- The unpacking `pytag, abitag, platformtag = tag.split("-")` followed by the expansion
comprehension.  A tag that does not split into exactly three fields makes the
source raise; such tags are mapped to `[]` here and never arise in a build. -/
def expanded_tags (tag : String) : List String :=
  match pySplitChar '-' tag with
  | [pytag, abitag, platformtag] => expanded_tags_of pytag abitag platformtag
  | _ => []

/-- The dist-info directory name, name dash version dot dist-info (source line 112). -/
def dist_info_name (name version : String) : String :=
  name ++ "-" ++ version ++ ".dist-info"

/-- Content of `python_git_bin/__init__.py`, synthesized verbatim by
`write_git_wheel` (source lines 275-318).  Apostrophes are written `\x27`. -/
def INIT_PY : String :=
  "\"\"\"Git binary distribution package.\"\"\"\n"
    ++ "\n"
    ++ "import os\n"
    ++ "import subprocess\n"
    ++ "import sys\n"
    ++ "from pathlib import Path\n"
    ++ "\n"
    ++ "__all__ = [\x27GIT_DIR\x27, \x27GIT_EXE\x27, \x27GIT_EXEC_PATH\x27, \x27main\x27, \x27run\x27]\n"
    ++ "\n"
    ++ "# Directory containing git installation\n"
    ++ "GIT_DIR = Path(__file__).parent / \x27git\x27\n"
    ++ "\n"
    ++ "# Path to git executable and exec path for helpers\n"
    ++ "if sys.platform == \x27win32\x27:\n"
    ++ "    GIT_EXE = GIT_DIR / \x27cmd\x27 / \x27git.exe\x27\n"
    ++ "    GIT_EXEC_PATH = GIT_DIR / \x27mingw64\x27 / \x27libexec\x27 / \x27git-core\x27\n"
    ++ "else:\n"
    ++ "    GIT_EXE = GIT_DIR / \x27bin\x27 / \x27git\x27\n"
    ++ "    GIT_EXEC_PATH = GIT_DIR / \x27libexec\x27 / \x27git-core\x27\n"
    ++ "\n"
    ++ "\n"
    ++ "def _get_env():\n"
    ++ "    \"\"\"Get environment with GIT_EXEC_PATH set.\"\"\"\n"
    ++ "    env = os.environ.copy()\n"
    ++ "    env[\x27GIT_EXEC_PATH\x27] = str(GIT_EXEC_PATH)\n"
    ++ "    # Also set template dir for init/clone operations\n"
    ++ "    template_dir = GIT_DIR / \x27share\x27 / \x27git-core\x27 / \x27templates\x27\n"
    ++ "    if template_dir.exists():\n"
    ++ "        env[\x27GIT_TEMPLATE_DIR\x27] = str(template_dir)\n"
    ++ "    return env\n"
    ++ "\n"
    ++ "\n"
    ++ "def run(*args, **kwargs):\n"
    ++ "    \"\"\"Run git with given arguments. Returns CompletedProcess.\"\"\"\n"
    ++ "    cmd = [str(GIT_EXE)] + list(args)\n"
    ++ "    kwargs.setdefault(\x27env\x27, _get_env())\n"
    ++ "    return subprocess.run(cmd, **kwargs)\n"
    ++ "\n"
    ++ "\n"
    ++ "def main():\n"
    ++ "    \"\"\"Run git with command line arguments.\"\"\"\n"
    ++ "    env = _get_env()\n"
    ++ "    sys.exit(subprocess.call([str(GIT_EXE)] + sys.argv[1:], env=env))\n"

/-- Content of `python_git_bin/__main__.py` (source lines 321-324). -/
def MAIN_PY : String :=
  "\"\"\"Allow running as python -m python_git_bin.\"\"\"\n"
    ++ "from python_git_bin import main\n"
    ++ "main()\n"

/-- Python `repr` of a string, as interpolated by the shim f-string, for the
plain-ASCII link targets that occur here (no quotes, backslashes or control
characters): the text wrapped in single quotes (`\x27`). -/
def pyRepr (s : String) : String := "\x27" ++ s ++ "\x27"

/-- The generated launcher ("shim") script for a non-self-referential symlink
with the given target (source lines 358-364). -/
def shim_script (target : String) : String :=
  "#!/usr/bin/env python3\n"
    ++ "import subprocess\n"
    ++ "import sys\n"
    ++ "from pathlib import Path\n"
    ++ "target = Path(__file__).parent / " ++ pyRepr target ++ "\n"
    ++ "sys.exit(subprocess.call([str(target)] + sys.argv[1:]))\n"

/-- The two synthesized launcher entries, inserted into the fresh `contents`
dict before any source-tree traversal (source lines 271-324). -/
def base_contents : List (WheelKey × Bytes) :=
  dictInsert
    (dictInsert [] (.str "python_git_bin/__init__.py") (strBytes INIT_PY))
    (.str "python_git_bin/__main__.py") (strBytes MAIN_PY)

/-- One filesystem object met by the `rglob("*")` walk: a symlink (with its
`os.readlink` target), a regular file (with its `stat().st_mode` and bytes),
or anything else (directories etc., which match neither `is_symlink()` nor
`is_file()`). -/
inductive FSKind where
  | symlink (target : String)
  | file (st_mode : Nat) (data : Bytes)
  | dir
deriving DecidableEq, Repr

/-- A walk item: its path relative to the binary directory plus its kind. -/
structure FSEntry where
  rel_path : String
  kind : FSKind
deriving DecidableEq, Repr

/-- The per-entry body of the `binary_dir` loop of `write_git_wheel`
(source lines 346-379); `i` is the identity tag of the freshly constructed
`ZipInfo`.  Returns the dict item stored, or `none` when the entry is skipped
(self-referential symlink, or neither symlink nor regular file). -/
def processTreeEntry (i : Nat) (e : FSEntry) : Option (WheelKey × Bytes) :=
  let filename := "python_git_bin/git/" ++ e.rel_path
  match e.kind with
  | .symlink target =>
      if target = "git" then none
      else
        some (.info i { filename := filename, external_attr := 0o755 <<< 16 },
          strBytes (shim_script target))
  | .file st_mode data =>
      let mode :=
        if pyStartsWith e.rel_path "bin/" || pyStartsWith e.rel_path "libexec/" then
          S_IFREG ||| 0o755
        else st_mode
      some (.info i { filename := filename
                      external_attr := (mode &&& 0xFFFF) <<< 16 }, data)
  | .dir => none

/-- The dict items produced by the walk, walked in enumeration order with
identity tags `n, n+1, ...` for the constructed descriptors. -/
def itemsFrom (n : Nat) (tree : List FSEntry) : List (WheelKey × Bytes) :=
  (List.enumFrom n tree).filterMap fun p => processTreeEntry p.1 p.2

/-- The `contents` dict after the launcher insertions and the directory walk
of `write_git_wheel` with `binary_dir` (source lines 271-379). -/
def contents_local (tree : List FSEntry) : List (WheelKey × Bytes) :=
  (itemsFrom 0 tree).foldl (fun d kv => dictInsert d kv.1 kv.2) base_contents

/-- An entry of an input zip archive: the fields of its `ZipInfo` record that
`iter_zip_contents` reads, plus the stored bytes. -/
structure SrcZipEntry where
  filename : String
  external_attr : Nat
  data : Bytes
deriving DecidableEq, Repr

/-- Method `ZipInfo.is_dir()`: the stored name ends with a slash. -/
def zipIsDir (e : SrcZipEntry) : Bool := pyEndsWith e.filename "/"

/-- Generator `iter_zip_contents` (source lines 229-234): yields
`(filename, external_attr >> 16, bytes)` for every non-directory entry. -/
def iter_zip_contents (entries : List SrcZipEntry) :
    List (String × Nat × Bytes) :=
  entries.filterMap fun e =>
    if zipIsDir e then none
    else some (e.filename, e.external_attr >>> 16, e.data)

/-- Tarfile open mode selected by the magic-byte sniff. -/
inductive TarMode where
  | gz | bz2 | xz | plain
deriving DecidableEq, Repr

/-- The compression auto-detection of `iter_tar_contents` (source lines
239-247): gzip, bzip2 and xz magic numbers checked in order on the leading
bytes, else uncompressed. -/
def detect_tar_mode (data : Bytes) : TarMode :=
  if data.take 2 = [0x1f, 0x8b] then .gz
  else if data.take 3 = [0x42, 0x5a, 0x68] then .bz2
  else if data.take 6 = [0xfd, 0x37, 0x7a, 0x58, 0x5a, 0x00] then .xz
  else .plain

/-- The kind of a tar member, as classified by `TarInfo.isreg()`. -/
inductive TarKind where
  | reg | dir | sym | other
deriving DecidableEq, Repr

/-- A member of an input tar archive: name, stored mode field, kind, bytes. -/
structure TarEntry where
  name : String
  mode : Nat
  typ : TarKind
  data : Bytes
deriving DecidableEq, Repr

/-- The member loop of `iter_tar_contents` (source lines 250-254): yields
`(name, mode | (1 << 15), bytes)` for every regular-file member. -/
def iter_tar_contents (entries : List TarEntry) :
    List (String × Nat × Bytes) :=
  entries.filterMap fun e =>
    if e.typ = TarKind.reg then some (e.name, e.mode ||| (1 <<< 15), e.data)
    else none

/-- Python truthiness of an optional string argument (`None` and the empty
string are falsy). -/
def pyTruthy : Option String → Bool
  | none => false
  | some s => s ≠ ""

/-- Where `download_with_checksum` leaves the straight-line path that ends in
the hash comparison: return-unverified (no checksum by either path), or the
`IndexError` from `split()[0]` on a token-free checksum body. -/
inductive DlFlow where
  | noVerify | indexErr
deriving DecidableEq, Repr

/-- The expected-checksum determination of `download_with_checksum` (source
lines 210-220): a truthy `expected_sha256` wins; otherwise, with a checksum
URL, the first whitespace token of the fetched body, lowercased; otherwise the
function returns the data unverified.  `sha256_body` is the decoded response
of the companion checksum URL (`none` when no URL was supplied). -/
def expected_of (sha256_body : Option String) (expected_sha256 : Option String) :
    Except DlFlow String :=
  if pyTruthy expected_sha256 then .ok (expected_sha256.getD "")
  else
    match sha256_body with
    | some body =>
        match pySplit body with
        | [] => .error .indexErr
        | tok :: _ => .ok (pyLower tok)
    | none => .error .noVerify

/-- Result of `download_with_checksum`: the data, or the `ValueError` raised
on a hash mismatch (carrying expected and actual), or the `IndexError` on an
empty checksum body. -/
inductive DlResult where
  | ok (data : Bytes)
  | mismatch (expected actual : String)
  | indexError
deriving DecidableEq, Repr

/-- Function `download_with_checksum` (source lines 197-226), with the downloaded bytes
and the checksum-URL response body as inputs and the SHA-256 hex-digest
function passed explicitly (it is the external `hashlib.sha256(..).hexdigest()`). -/
def download_with_checksum (sha256hex : Bytes → String) (data : Bytes)
    (sha256_body : Option String) (expected_sha256 : Option String) : DlResult :=
  let actual_sha256 := sha256hex data
  match expected_of sha256_body expected_sha256 with
  | .error .noVerify => .ok data
  | .error .indexErr => .indexError
  | .ok expected =>
      if pyLower actual_sha256 ≠ pyLower expected then
        .mismatch expected actual_sha256
      else .ok data

/-- Table `PLATFORM_TAGS` (source lines 49-57). -/
def PLATFORM_TAGS : List (String × String) :=
  [("win_amd64", "win_amd64"),
   ("win_arm64", "win_arm64"),
   ("win32", "win32"),
   ("macos_x86_64", "macosx_10_15_x86_64"),
   ("macos_arm64", "macosx_11_0_arm64"),
   ("linux_x86_64", "manylinux_2_17_x86_64.musllinux_1_1_x86_64"),
   ("linux_aarch64", "manylinux_2_17_aarch64.musllinux_1_1_aarch64")]

/-- Function `get_git_executable_name` (source lines 257-262). -/
def get_git_executable_name (platform : String) : String :=
  if pyStartsWith platform "win" then "cmd/git.exe" else "bin/git"

/-- The metadata pairs passed by `write_git_wheel` (source lines 395-408). -/
def GIT_WHEEL_METADATA : List (String × List String) :=
  [("Summary", ["Git - fast, scalable, distributed revision control system"]),
   ("Description-Content-Type", ["text/markdown"]),
   ("License-Expression", ["GPL-2.0-only"]),
   ("Classifier", ["Development Status :: 5 - Production/Stable"]),
   ("Classifier", ["Intended Audience :: Developers"]),
   ("Classifier", ["Topic :: Software Development :: Version Control :: Git"]),
   ("Classifier", ["Programming Language :: C"]),
   ("Classifier", ["License :: OSI Approved :: GNU General Public License v2 (GPLv2)"]),
   ("Project-URL", ["Homepage, https://git-scm.com"]),
   ("Project-URL", ["Source Code, https://github.com/git/git"]),
   ("Project-URL", ["PyPI Project, https://github.com/zanieb/git-pypi"]),
   ("Requires-Python", [">=3.8"])]

/-- Function `write_wheel` (source lines 109-148): merges the three `dist-info`
metadata entries into the contents dict (string keys, inserted after the
contents) and writes everything through the reproducible writer. -/
def write_wheel (name version tag : String)
    (metadata : List (String × List String)) (description : String)
    (contents : List (WheelKey × Bytes)) : List WrittenEntry :=
  let dist_info := dist_info_name name version
  let c1 := dictInsert contents (.str (dist_info ++ "/entry_points.txt"))
    (strBytes (make_message [] "[console_scripts]\ngit = python_git_bin:main"))
  let c2 := dictInsert c1 (.str (dist_info ++ "/METADATA"))
    (strBytes (make_message
      ([("Metadata-Version", ["2.4"]), ("Name", [name]), ("Version", [version])]
        ++ metadata) description))
  let c3 := dictInsert c2 (.str (dist_info ++ "/WHEEL"))
    (strBytes (make_message
      [("Wheel-Version", ["1.0"]), ("Generator", ["git-bin make_wheels.py"]),
       ("Root-Is-Purelib", ["false"]), ("Tag", expanded_tags tag)] ""))
  write_wheel_file c3

/-- The default long description (`README.pypi.md` absent, source line 388). -/
def DEFAULT_DESCRIPTION : String := "Git distributed as a Python package."

/-- Function `write_git_wheel` with `binary_dir` (the local-directory build), producing
the ordered entry list of the output archive.  `python_platform` is
`PLATFORM_TAGS[platform]`. -/
def write_git_wheel_local (version python_platform : String)
    (tree : List FSEntry) : List WrittenEntry :=
  write_wheel "python_git_bin" version ("py3-none-" ++ python_platform)
    GIT_WHEEL_METADATA DEFAULT_DESCRIPTION (contents_local tree)

/-- The per-entry body of the `archive_data` loop of `write_git_wheel`
(source lines 329-339), on one tuple yielded by `iter_zip_contents`;
`i` tags the freshly constructed `ZipInfo`. -/
def zipItem (i : Nat) (x : String × Nat × Bytes) : WheelKey × Bytes :=
  let attr :=
    if x.2.1 ≠ 0 then (x.2.1 &&& 0xFFFF) <<< 16
    else if pyEndsWith x.1 ".exe" then 0o755 <<< 16
    else 0o644 <<< 16
  (.info i { filename := "python_git_bin/git/" ++ x.1, external_attr := attr },
    x.2.2)

/-- The `contents` dict of a Windows (zip `archive_data`) build. -/
def contents_zip (entries : List SrcZipEntry) : List (WheelKey × Bytes) :=
  (((iter_zip_contents entries).enum).map fun p => zipItem p.1 p.2).foldl
    (fun d kv => dictInsert d kv.1 kv.2) base_contents

/-- Function `write_git_wheel` with `archive_data` (the Windows MinGit build). -/
def write_git_wheel_zip (version python_platform : String)
    (entries : List SrcZipEntry) : List WrittenEntry :=
  write_wheel "python_git_bin" version ("py3-none-" ++ python_platform)
    GIT_WHEEL_METADATA DEFAULT_DESCRIPTION (contents_zip entries)

/-- Function `build_windows_wheel` (source lines 414-442), after asset resolution:
download-and-verify first, archive creation only on success; a checksum
failure raises before any output file exists.  The zip parser of the external
`zipfile` module is passed explicitly. -/
def build_windows_wheel (sha256hex : Bytes → String)
    (parseZip : Bytes → List SrcZipEntry) (version python_platform : String)
    (data : Bytes) (sha256_body expected_sha256 : Option String) :
    Except String (List WrittenEntry) :=
  match download_with_checksum sha256hex data sha256_body expected_sha256 with
  | .ok d => .ok (write_git_wheel_zip version python_platform (parseZip d))
  | .mismatch e a => .error ("SHA256 mismatch! Expected " ++ e ++ ", got " ++ a)
  | .indexError => .error "IndexError: list index out of range"

/-! ### String helper lemmas -/

theorem strData_append (a b : String) : (a ++ b).data = a.data ++ b.data := by
  cases a; cases b; rfl

theorem str_ne_of_ne_pre {p q : String} (hl : p.data.length = q.data.length)
    (hpq : p ≠ q) (a b : String) : p ++ a ≠ q ++ b := by
  intro h
  apply hpq
  apply String.ext
  have h2 := congrArg String.data h
  rw [strData_append, strData_append] at h2
  exact (List.append_inj h2 hl).1

theorem str_append_right_inj {p a b : String} (h : p ++ a = p ++ b) : a = b := by
  apply String.ext
  have h2 := congrArg String.data h
  rw [strData_append, strData_append] at h2
  exact List.append_cancel_left h2

theorem str_ne_of_suffix_ne {p a b : String} (hab : a ≠ b) : p ++ a ≠ p ++ b :=
  fun h => hab (str_append_right_inj h)

theorem distinfo_path_eq (version sfx : String) :
    dist_info_name "python_git_bin" version ++ sfx =
      "python_git_bin-" ++ (version ++ (".dist-info" ++ sfx)) := by
  rw [show ("python_git_bin-" : String) = "python_git_bin" ++ "-" from rfl]
  simp only [dist_info_name, String.append_assoc]

theorem tree_path_eq (rel : String) :
    "python_git_bin/git/" ++ rel = "python_git_bin/" ++ ("git/" ++ rel) := by
  rw [show ("python_git_bin/git/" : String) = "python_git_bin/" ++ "git/" from rfl]
  rw [String.append_assoc]

theorem distinfo_ne_pkgpath (version sfx r : String) :
    dist_info_name "python_git_bin" version ++ sfx ≠ "python_git_bin/" ++ r := by
  rw [distinfo_path_eq]
  exact str_ne_of_ne_pre (by decide) (by decide) _ _

theorem tree_path_ne_init (rel : String) :
    "python_git_bin/git/" ++ rel ≠ "python_git_bin/__init__.py" := by
  rw [tree_path_eq,
    show ("python_git_bin/__init__.py" : String) = "python_git_bin/" ++ "__init__.py" from rfl]
  apply str_ne_of_suffix_ne
  rw [show ("__init__.py" : String) = "__in" ++ "it__.py" from rfl]
  exact str_ne_of_ne_pre (by decide) (by decide) _ _

theorem tree_path_ne_main (rel : String) :
    "python_git_bin/git/" ++ rel ≠ "python_git_bin/__main__.py" := by
  rw [tree_path_eq,
    show ("python_git_bin/__main__.py" : String) = "python_git_bin/" ++ "__main__.py" from rfl]
  apply str_ne_of_suffix_ne
  rw [show ("__main__.py" : String) = "__ma" ++ "in__.py" from rfl]
  exact str_ne_of_ne_pre (by decide) (by decide) _ _

/-! ### Dict helper lemmas -/

theorem dictInsert_fresh (d : List (WheelKey × Bytes)) (k : WheelKey) (v : Bytes)
    (h : ∀ kv ∈ d, kv.1 ≠ k) : dictInsert d k v = d ++ [(k, v)] := by
  have hany : d.any (fun kv => kv.1 == k) = false := by
    simp only [List.any_eq_false]
    intro kv hkv
    simpa using h kv hkv
  simp [dictInsert, hany]

theorem foldl_dictInsert (items : List (WheelKey × Bytes)) :
    ∀ d : List (WheelKey × Bytes),
      (∀ kv ∈ items, ∀ kv2 ∈ d, kv2.1 ≠ kv.1) →
      ((items.map Prod.fst).Nodup) →
      items.foldl (fun acc kv => dictInsert acc kv.1 kv.2) d = d ++ items := by
  induction items with
  | nil => intro d _ _; simp
  | cons kv t ih =>
      intro d hdisj hnd
      simp only [List.map_cons, List.nodup_cons] at hnd
      have h1 : dictInsert d kv.1 kv.2 = d ++ [(kv.1, kv.2)] :=
        dictInsert_fresh d kv.1 kv.2 (fun kv2 h2 => hdisj kv (by simp) kv2 h2)
      simp only [List.foldl_cons, h1]
      rw [ih (d ++ [(kv.1, kv.2)]) ?_ hnd.2]
      · simp
      · intro kv3 h3 kv2 h2
        rcases List.mem_append.mp h2 with h2' | h2'
        · exact hdisj kv3 (List.mem_cons_of_mem _ h3) kv2 h2'
        · have hkv2 : kv2 = (kv.1, kv.2) := by simpa using h2'
          subst hkv2
          intro hEq
          exact hnd.1 (hEq ▸ List.mem_map_of_mem Prod.fst h3)

/-! ### Walk-item lemmas -/

theorem itemsFrom_cons (n : Nat) (e : FSEntry) (t : List FSEntry) :
    itemsFrom n (e :: t) = (processTreeEntry n e).toList ++ itemsFrom (n+1) t := by
  simp only [itemsFrom]
  rw [show List.enumFrom n (e :: t) = (n, e) :: List.enumFrom (n+1) t from rfl]
  cases h : processTreeEntry n e <;> simp [List.filterMap_cons, h]

theorem processTreeEntry_some (n : Nat) (e : FSEntry) (kv : WheelKey × Bytes)
    (h : processTreeEntry n e = some kv) :
    ∃ zi : ZipInfo, kv.1 = WheelKey.info n zi ∧
      zi.filename = "python_git_bin/git/" ++ e.rel_path := by
  rcases e with ⟨rel, kind⟩
  cases kind with
  | symlink target =>
      by_cases ht : target = "git"
      · simp [processTreeEntry, ht] at h
      · simp only [processTreeEntry, if_neg ht] at h
        injection h with h2
        exact ⟨_, by rw [← h2], rfl⟩
  | file st_mode data =>
      simp only [processTreeEntry] at h
      injection h with h2
      exact ⟨_, by rw [← h2], rfl⟩
  | dir => simp [processTreeEntry] at h

theorem itemsFrom_key_spec (tree : List FSEntry) :
    ∀ n : Nat, ∀ kv ∈ itemsFrom n tree, ∃ i : Nat, ∃ zi : ZipInfo, ∃ e : FSEntry,
      kv.1 = WheelKey.info i zi ∧ n ≤ i ∧ e ∈ tree ∧
      zi.filename = "python_git_bin/git/" ++ e.rel_path := by
  induction tree with
  | nil => intro n kv hkv; simp [itemsFrom] at hkv
  | cons e t ih =>
      intro n kv hkv
      rw [itemsFrom_cons] at hkv
      rcases List.mem_append.mp hkv with h | h
      · have hme : processTreeEntry n e = some kv := by
          cases hpe : processTreeEntry n e <;> rw [hpe] at h <;> simp at h
          rw [h]
        obtain ⟨zi, h1, h2⟩ := processTreeEntry_some n e kv hme
        exact ⟨n, zi, e, h1, Nat.le_refl n, List.mem_cons_self e t, h2⟩
      · obtain ⟨i, zi, e2, h1, h2, h3, h4⟩ := ih (n+1) kv h
        exact ⟨i, zi, e2, h1, Nat.le_trans (Nat.le_succ n) h2,
          List.mem_cons_of_mem e h3, h4⟩

theorem itemsFrom_keys_nodup (tree : List FSEntry) :
    ∀ n : Nat, ((itemsFrom n tree).map Prod.fst).Nodup := by
  induction tree with
  | nil => intro n; simp [itemsFrom]
  | cons e t ih =>
      intro n
      rw [itemsFrom_cons]
      cases hpe : processTreeEntry n e with
      | none => simpa using ih (n+1)
      | some kv =>
          simp only [Option.toList_some, List.singleton_append, List.map_cons,
            List.nodup_cons]
          refine ⟨?_, ih (n+1)⟩
          intro hmem
          rcases List.mem_map.mp hmem with ⟨kv2, h2, hEq⟩
          obtain ⟨i, zi, e2, h3, h4, _, _⟩ := itemsFrom_key_spec t (n+1) kv2 h2
          obtain ⟨zi0, h5, _⟩ := processTreeEntry_some n e kv hpe
          rw [h3, h5] at hEq
          injection hEq with hid _
          omega

theorem itemsFrom_filenames_sublist (tree : List FSEntry) :
    ∀ n : Nat, List.Sublist ((itemsFrom n tree).map fun kv => keyFilename kv.1)
      (tree.map fun e => "python_git_bin/git/" ++ e.rel_path) := by
  induction tree with
  | nil => intro n; simp [itemsFrom]
  | cons e t ih =>
      intro n
      rw [itemsFrom_cons]
      cases hpe : processTreeEntry n e with
      | none => simpa using List.Sublist.cons _ (ih (n+1))
      | some kv =>
          obtain ⟨zi, h1, h2⟩ := processTreeEntry_some n e kv hpe
          simp only [Option.toList_some, List.singleton_append, List.map_cons]
          rw [show keyFilename kv.1 = "python_git_bin/git/" ++ e.rel_path by
            rw [h1]; exact h2]
          exact List.Sublist.cons₂ _ (ih (n+1))

theorem itemsFrom_filenames_nodup (tree : List FSEntry)
    (h : (tree.map FSEntry.rel_path).Nodup) :
    ((itemsFrom 0 tree).map fun kv => keyFilename kv.1).Nodup := by
  apply (itemsFrom_filenames_sublist tree 0).nodup
  rw [show (tree.map fun e => "python_git_bin/git/" ++ e.rel_path) =
      (tree.map FSEntry.rel_path).map (fun s => "python_git_bin/git/" ++ s) by
    simp [List.map_map]]
  exact h.map (fun a b hab => str_append_right_inj hab)

theorem base_contents_eq :
    base_contents = [(.str "python_git_bin/__init__.py", strBytes INIT_PY),
      (.str "python_git_bin/__main__.py", strBytes MAIN_PY)] := by
  have h1 : dictInsert [] (.str "python_git_bin/__init__.py") (strBytes INIT_PY)
      = [(.str "python_git_bin/__init__.py", strBytes INIT_PY)] := by
    rw [dictInsert_fresh]
    · rfl
    · simp
  simp only [base_contents]
  rw [h1, dictInsert_fresh]
  · rfl
  · intro kv hkv
    rw [List.mem_singleton] at hkv
    rw [hkv]
    simp

theorem contents_local_eq (tree : List FSEntry) :
    contents_local tree = base_contents ++ itemsFrom 0 tree := by
  apply foldl_dictInsert
  · intro kv hkv kv2 hkv2
    obtain ⟨i, zi, e, h1, _, _, _⟩ := itemsFrom_key_spec tree 0 kv hkv
    rw [base_contents_eq] at hkv2
    have h2 : kv2 = (.str "python_git_bin/__init__.py", strBytes INIT_PY) ∨
        kv2 = (.str "python_git_bin/__main__.py", strBytes MAIN_PY) := by
      simpa using hkv2
    rcases h2 with h | h <;> rw [h, h1] <;> simp
  · exact itemsFrom_keys_nodup tree 0

/-! ### Decomposition of a local-directory build -/

/-- Bytes of the `entry_points.txt` metadata entry. -/
def entry_points_bytes : Bytes :=
  strBytes (make_message [] "[console_scripts]\ngit = python_git_bin:main")

/-- Bytes of the `METADATA` metadata entry of a git wheel. -/
def metadata_bytes (version : String) : Bytes :=
  strBytes (make_message
    ([("Metadata-Version", ["2.4"]), ("Name", ["python_git_bin"]),
      ("Version", [version])] ++ GIT_WHEEL_METADATA) DEFAULT_DESCRIPTION)

/-- Bytes of the `WHEEL` metadata entry of a git wheel. -/
def wheel_msg_bytes (python_platform : String) : Bytes :=
  strBytes (make_message
    [("Wheel-Version", ["1.0"]), ("Generator", ["git-bin make_wheels.py"]),
     ("Root-Is-Purelib", ["false"]),
     ("Tag", expanded_tags ("py3-none-" ++ python_platform))] "")

theorem base_items_keys (tree : List FSEntry) (kv : WheelKey × Bytes)
    (hkv : kv ∈ base_contents ++ itemsFrom 0 tree) :
    kv.1 = WheelKey.str "python_git_bin/__init__.py" ∨
    kv.1 = WheelKey.str "python_git_bin/__main__.py" ∨
    ∃ i : Nat, ∃ zi : ZipInfo, ∃ rel : String,
      kv.1 = WheelKey.info i zi ∧ zi.filename = "python_git_bin/git/" ++ rel := by
  rcases List.mem_append.mp hkv with h | h
  · rw [base_contents_eq] at h
    have h2 : kv = (.str "python_git_bin/__init__.py", strBytes INIT_PY) ∨
        kv = (.str "python_git_bin/__main__.py", strBytes MAIN_PY) := by
      simpa using h
    rcases h2 with h | h <;> rw [h] <;> simp
  · obtain ⟨i, zi, e, h1, _, _, h4⟩ := itemsFrom_key_spec tree 0 kv h
    exact .inr (.inr ⟨i, zi, e.rel_path, h1, h4⟩)

theorem distinfo_key_fresh (version sfx : String) (tree : List FSEntry)
    (kv : WheelKey × Bytes) (hkv : kv ∈ base_contents ++ itemsFrom 0 tree) :
    kv.1 ≠ WheelKey.str (dist_info_name "python_git_bin" version ++ sfx) := by
  rcases base_items_keys tree kv hkv with h | h | ⟨i, zi, rel, h, hfn⟩ <;> rw [h]
  · intro hEq
    injection hEq with hs
    exact distinfo_ne_pkgpath version sfx "__init__.py" (hs.symm.trans
      (show ("python_git_bin/__init__.py" : String)
        = "python_git_bin/" ++ "__init__.py" from rfl))
  · intro hEq
    injection hEq with hs
    exact distinfo_ne_pkgpath version sfx "__main__.py" (hs.symm.trans
      (show ("python_git_bin/__main__.py" : String)
        = "python_git_bin/" ++ "__main__.py" from rfl))
  · simp

theorem write_git_wheel_local_eq (version python_platform : String)
    (tree : List FSEntry) :
    write_git_wheel_local version python_platform tree = write_wheel_file
      (base_contents ++ itemsFrom 0 tree ++
        [(.str (dist_info_name "python_git_bin" version ++ "/entry_points.txt"),
            entry_points_bytes),
         (.str (dist_info_name "python_git_bin" version ++ "/METADATA"),
            metadata_bytes version),
         (.str (dist_info_name "python_git_bin" version ++ "/WHEEL"),
            wheel_msg_bytes python_platform)]) := by
  have e1 : dictInsert (base_contents ++ itemsFrom 0 tree)
      (.str (dist_info_name "python_git_bin" version ++ "/entry_points.txt"))
      entry_points_bytes
      = (base_contents ++ itemsFrom 0 tree) ++
        [(.str (dist_info_name "python_git_bin" version ++ "/entry_points.txt"),
          entry_points_bytes)] :=
    dictInsert_fresh _ _ _
      (fun kv hkv => distinfo_key_fresh version "/entry_points.txt" tree kv hkv)
  have e2 : dictInsert ((base_contents ++ itemsFrom 0 tree) ++
        [(.str (dist_info_name "python_git_bin" version ++ "/entry_points.txt"),
          entry_points_bytes)])
      (.str (dist_info_name "python_git_bin" version ++ "/METADATA"))
      (metadata_bytes version)
      = ((base_contents ++ itemsFrom 0 tree) ++
        [(.str (dist_info_name "python_git_bin" version ++ "/entry_points.txt"),
          entry_points_bytes)]) ++
        [(.str (dist_info_name "python_git_bin" version ++ "/METADATA"),
          metadata_bytes version)] := by
    apply dictInsert_fresh
    intro kv hkv
    rcases List.mem_append.mp hkv with h | h
    · exact distinfo_key_fresh version "/METADATA" tree kv h
    · have h2 : kv = (.str (dist_info_name "python_git_bin" version
          ++ "/entry_points.txt"), entry_points_bytes) := by
        simpa using h
      rw [h2]
      intro hEq
      injection hEq with hs
      exact @str_ne_of_suffix_ne (dist_info_name "python_git_bin" version)
        "/entry_points.txt" "/METADATA" (by decide) hs
  have e3 : dictInsert (((base_contents ++ itemsFrom 0 tree) ++
        [(.str (dist_info_name "python_git_bin" version ++ "/entry_points.txt"),
          entry_points_bytes)]) ++
        [(.str (dist_info_name "python_git_bin" version ++ "/METADATA"),
          metadata_bytes version)])
      (.str (dist_info_name "python_git_bin" version ++ "/WHEEL"))
      (wheel_msg_bytes python_platform)
      = (((base_contents ++ itemsFrom 0 tree) ++
        [(.str (dist_info_name "python_git_bin" version ++ "/entry_points.txt"),
          entry_points_bytes)]) ++
        [(.str (dist_info_name "python_git_bin" version ++ "/METADATA"),
          metadata_bytes version)]) ++
        [(.str (dist_info_name "python_git_bin" version ++ "/WHEEL"),
          wheel_msg_bytes python_platform)] := by
    apply dictInsert_fresh
    intro kv hkv
    rcases List.mem_append.mp hkv with h | h
    · rcases List.mem_append.mp h with h3 | h3
      · exact distinfo_key_fresh version "/WHEEL" tree kv h3
      · have h2 : kv = (.str (dist_info_name "python_git_bin" version
            ++ "/entry_points.txt"), entry_points_bytes) := by
          simpa using h3
        rw [h2]
        intro hEq
        injection hEq with hs
        exact @str_ne_of_suffix_ne (dist_info_name "python_git_bin" version)
          "/entry_points.txt" "/WHEEL" (by decide) hs
    · have h2 : kv = (.str (dist_info_name "python_git_bin" version
          ++ "/METADATA"), metadata_bytes version) := by
        simpa using h
      rw [h2]
      intro hEq
      injection hEq with hs
      exact @str_ne_of_suffix_ne (dist_info_name "python_git_bin" version)
        "/METADATA" "/WHEEL" (by decide) hs
  simp only [write_git_wheel_local, write_wheel]
  rw [contents_local_eq]
  rw [show entry_points_bytes
      = strBytes (make_message [] "[console_scripts]\ngit = python_git_bin:main")
    from rfl] at e1 e2 e3
  rw [show metadata_bytes version = strBytes (make_message
      ([("Metadata-Version", ["2.4"]), ("Name", ["python_git_bin"]),
        ("Version", [version])] ++ GIT_WHEEL_METADATA) DEFAULT_DESCRIPTION)
    from rfl] at e2 e3
  rw [show wheel_msg_bytes python_platform = strBytes (make_message
      [("Wheel-Version", ["1.0"]), ("Generator", ["git-bin make_wheels.py"]),
       ("Root-Is-Purelib", ["false"]),
       ("Tag", expanded_tags ("py3-none-" ++ python_platform))] "")
    from rfl] at e3
  rw [e1, e2, e3]
  simp only [entry_points_bytes, metadata_bytes, wheel_msg_bytes,
    List.append_assoc, List.singleton_append, List.cons_append, List.nil_append]

/-! ### Small shared helpers for the claim theorems -/

theorem writestr_filename (k : WheelKey) (v : Bytes) :
    (writestr k.toZ v).filename = keyFilename k := by
  cases k <;> rfl

theorem write_wheel_file_filenames (L : List (WheelKey × Bytes)) :
    (write_wheel_file L).map WrittenEntry.filename
      = L.map fun kv => keyFilename kv.1 := by
  simp only [write_wheel_file, List.map_map]
  exact List.map_congr_left fun kv _ => writestr_filename kv.1 kv.2

theorem itemsFrom_filenames_mem (tree : List FSEntry) (f : String)
    (hf : f ∈ (itemsFrom 0 tree).map fun kv => keyFilename kv.1) :
    ∃ rel : String, f = "python_git_bin/git/" ++ rel := by
  rcases List.mem_map.mp hf with ⟨kv, hkv, hEq⟩
  obtain ⟨i, zi, e, h1, _, _, h4⟩ := itemsFrom_key_spec tree 0 kv hkv
  exact ⟨e.rel_path, by rw [← hEq, h1]; exact h4⟩

theorem iter_zip_mem (zs : List SrcZipEntry) :
    ∀ x ∈ iter_zip_contents zs, ∃ e ∈ zs, zipIsDir e = false ∧
      x = (e.filename, e.external_attr >>> 16, e.data) := by
  intro x hx
  simp only [iter_zip_contents, List.mem_filterMap] at hx
  obtain ⟨e, he, hfe⟩ := hx
  by_cases hd : zipIsDir e = true
  · rw [if_pos hd] at hfe; cases hfe
  · rw [if_neg hd] at hfe
    injection hfe with h2
    exact ⟨e, he, by simpa using hd, h2.symm⟩

theorem iter_tar_mem (ts : List TarEntry) :
    ∀ y ∈ iter_tar_contents ts, ∃ e ∈ ts, e.typ = TarKind.reg ∧
      y = (e.name, e.mode ||| (1 <<< 15), e.data) := by
  intro y hy
  simp only [iter_tar_contents, List.mem_filterMap] at hy
  obtain ⟨e, he, hfe⟩ := hy
  by_cases ht : e.typ = TarKind.reg
  · rw [if_pos ht] at hfe
    injection hfe with h2
    exact ⟨e, he, ht, h2.symm⟩
  · rw [if_neg ht] at hfe; cases hfe

theorem expected_of_token (body tok : String) (exp : Option String)
    (hexp : pyTruthy exp = false) (h : (pySplit body).head? = some tok) :
    expected_of (some body) exp = .ok (pyLower tok) := by
  simp only [expected_of, hexp, Bool.false_eq_true, if_false]
  cases hs : pySplit body with
  | nil => rw [hs] at h; cases h
  | cons a t =>
      rw [hs] at h
      injection h with h2
      rw [h2]

/-- Modelled from the spec: the full Cartesian product of the three
dot-separated alternative lists, each combination dash-joined, with the
platform variants outermost, abi variants middle and python tags innermost
(python tag varying fastest). -/
def spec_tag_product (pytag abitag platformtag : String) : List String :=
  ((pySplitChar '.' platformtag).map fun z =>
    ((pySplitChar '.' abitag).map fun y =>
      (pySplitChar '.' pytag).map fun x =>
        String.intercalate "-" [x, y, z]).flatten).flatten

theorem intercalate_dash (x y z : String) :
    String.intercalate "-" [x, y, z] = x ++ "-" ++ y ++ "-" ++ z := by
  simp [String.intercalate, String.intercalate.go, String.append_assoc]

/-! ### The claim theorems -/

/-- C3: in the local-directory walk, a symlink whose target is exactly `git`
produces no output entry; any other symlink named `Y` with target `Z` produces
an entry at `Y`'s virtual path, mode `0o755`, whose content is the generated
launcher script `shim_script Z` (which resolves `Z` next to its own install
location via `Path(__file__).parent / repr(Z)` and subprocess-invokes it,
forwarding `sys.argv[1:]` and the exit code). -/
theorem C3_symlink_policy (i : Nat) (path target : String) :
    processTreeEntry i ⟨path, FSKind.symlink "git"⟩ = none ∧
    (target ≠ "git" →
      processTreeEntry i ⟨path, FSKind.symlink target⟩ =
        some (WheelKey.info i
          { filename := "python_git_bin/git/" ++ path
            external_attr := 0o755 <<< 16 },
          strBytes (shim_script target))) := by
  constructor
  · simp [processTreeEntry]
  · intro ht
    simp [processTreeEntry, ht]

/-- Witness for C3 at a concrete symlink entry. -/
theorem C3_symlink_policy_witness :
    processTreeEntry 7 ⟨"libexec/git-core/git-remote-https",
        FSKind.symlink "git"⟩ = none ∧
    processTreeEntry 7 ⟨"libexec/git-core/git-remote-https",
        FSKind.symlink "git-remote-http"⟩
      = some (WheelKey.info 7
          { filename := "python_git_bin/git/"
              ++ "libexec/git-core/git-remote-https"
            external_attr := 0o755 <<< 16 },
          strBytes (shim_script "git-remote-http")) :=
  ⟨(C3_symlink_policy 7 "libexec/git-core/git-remote-https"
      "git-remote-http").1,
   (C3_symlink_policy 7 "libexec/git-core/git-remote-https"
      "git-remote-http").2 (by decide)⟩

/-- C4: tag expansion is the Cartesian product of the three dot-separated
alternative lists, dash-joined, ordered platform outer / abi middle / python
tag inner (python tag fastest); in particular the compact linux tag expands to
exactly the manylinux and musllinux tags, in that order. -/
theorem C4_tag_expansion :
    (∀ pytag abitag platformtag : String,
      expanded_tags_of pytag abitag platformtag
        = spec_tag_product pytag abitag platformtag) ∧
    expanded_tags "py3-none-manylinux_2_17_x86_64.musllinux_1_1_x86_64"
      = ["py3-none-manylinux_2_17_x86_64", "py3-none-musllinux_1_1_x86_64"] := by
  constructor
  · intro pytag abitag platformtag
    simp only [expanded_tags_of, spec_tag_product, intercalate_dash,
      List.flatMap_def]
  · decide

/-- C5: in the local-directory walk, a regular file under `bin/` or `libexec/`
gets its permission word forced to the regular-file flag plus `0o755`
regardless of its source mode; any other regular file keeps its source
`st_mode` bits. -/
theorem C5_executable_permissions (i : Nat) (path : String) (st_mode : Nat)
    (data : Bytes) :
    ((pyStartsWith path "bin/" || pyStartsWith path "libexec/") = true →
      processTreeEntry i ⟨path, FSKind.file st_mode data⟩ =
        some (WheelKey.info i
          { filename := "python_git_bin/git/" ++ path
            external_attr := (S_IFREG ||| 0o755) <<< 16 }, data)) ∧
    ((pyStartsWith path "bin/" || pyStartsWith path "libexec/") = false →
      st_mode < 65536 →
      processTreeEntry i ⟨path, FSKind.file st_mode data⟩ =
        some (WheelKey.info i
          { filename := "python_git_bin/git/" ++ path
            external_attr := st_mode <<< 16 }, data)) := by
  constructor
  · intro h
    simp only [processTreeEntry, h, if_true]
    rw [show ((S_IFREG ||| 0o755) &&& 0xFFFF) = S_IFREG ||| 0o755 from by decide]
  · intro h hlt
    simp only [processTreeEntry, h, Bool.false_eq_true, if_false]
    rw [show (st_mode &&& 0xFFFF) = st_mode from by
      have := Nat.and_pow_two_sub_one_eq_mod st_mode 16
      norm_num at this
      omega]

/-- Witness for C5: `bin/git` with mode 0644 is forced to `S_IFREG | 0o755`;
`share/doc/README` keeps its source mode 0600. -/
theorem C5_executable_permissions_witness :
    processTreeEntry 3 ⟨"bin/git", FSKind.file 0o644 [7]⟩ =
      some (WheelKey.info 3
        { filename := "python_git_bin/git/" ++ "bin/git"
          external_attr := (S_IFREG ||| 0o755) <<< 16 }, [7]) ∧
    processTreeEntry 4 ⟨"share/doc/README", FSKind.file 0o600 [8]⟩ =
      some (WheelKey.info 4
        { filename := "python_git_bin/git/" ++ "share/doc/README"
          external_attr := 0o600 <<< 16 }, [8]) :=
  ⟨(C5_executable_permissions 3 "bin/git" 0o644 [7]).1 (by decide),
   (C5_executable_permissions 4 "share/doc/README" 0o600 [8]).2
     (by decide) (by decide)⟩

/-- C7: every entry written by `ReproducibleWheelFile.writestr` has the fixed
1980-01-01 timestamp, deflate compression and create_system 3; string-named
entries default to attribute `0o644 << 16`, or `0o664 << 16` when the name
ends in `.dist-info/RECORD`; descriptor-supplied entries keep their supplied
permission word. -/
theorem C7_reproducible_writestr (zi : ZipInfo) (name : String) (data : Bytes) :
    ((writestr (.info zi) data).date_time = (1980, 1, 1, 0, 0, 0) ∧
     (writestr (.info zi) data).compress_type = ZIP_DEFLATED ∧
     (writestr (.info zi) data).create_system = 3 ∧
     (writestr (.info zi) data).external_attr = zi.external_attr) ∧
    ((writestr (.arcname name) data).date_time = (1980, 1, 1, 0, 0, 0) ∧
     (writestr (.arcname name) data).compress_type = ZIP_DEFLATED ∧
     (writestr (.arcname name) data).create_system = 3 ∧
     (writestr (.arcname name) data).external_attr =
       (if pyEndsWith name ".dist-info/RECORD" then 0o664 else 0o644) <<< 16) := by
  refine ⟨⟨rfl, rfl, rfl, rfl⟩, rfl, rfl, rfl, ?_⟩
  simp only [writestr]
  split <;> rfl

/-- C6: `download_with_checksum` raises the integrity error exactly when an
expected checksum was determined (truthy direct argument, or first token of
the checksum-URL body) and the digest differs case-insensitively; with no
checksum by either path it returns the data unverified; in the Windows build
pipeline a mismatch yields an error before any archive is built, and a
successful download proceeds to build the archive. -/
theorem C6_checksum_gate (sha256hex : Bytes → String)
    (parseZip : Bytes → List SrcZipEntry) (version python_platform : String)
    (data : Bytes) (body exp : Option String) :
    ((∃ e a : String, download_with_checksum sha256hex data body exp
        = DlResult.mismatch e a) ↔
      (∃ e : String, expected_of body exp = Except.ok e ∧
        pyLower (sha256hex data) ≠ pyLower e)) ∧
    (pyTruthy exp = false → body = none →
      download_with_checksum sha256hex data body exp = DlResult.ok data) ∧
    (∀ e a : String, download_with_checksum sha256hex data body exp
        = DlResult.mismatch e a →
      build_windows_wheel sha256hex parseZip version python_platform data body
          exp
        = Except.error ("SHA256 mismatch! Expected " ++ e ++ ", got " ++ a)) ∧
    (download_with_checksum sha256hex data body exp = DlResult.ok data →
      build_windows_wheel sha256hex parseZip version python_platform data body
          exp
        = Except.ok (write_git_wheel_zip version python_platform
            (parseZip data))) := by
  refine ⟨⟨?_, ?_⟩, ?_, ?_, ?_⟩
  · rintro ⟨e, a, h⟩
    simp only [download_with_checksum] at h
    cases hx : expected_of body exp with
    | error fl => cases fl <;> rw [hx] at h <;> simp at h
    | ok e2 =>
        rw [hx] at h
        simp only at h
        by_cases hne : pyLower (sha256hex data) ≠ pyLower e2
        · exact ⟨e2, rfl, hne⟩
        · rw [if_neg hne] at h
          cases h
  · rintro ⟨e, hx, hne⟩
    refine ⟨e, sha256hex data, ?_⟩
    simp [download_with_checksum, hx, hne]
  · intro h1 h2
    subst h2
    simp [download_with_checksum, expected_of, h1]
  · intro e a h
    simp [build_windows_wheel, h]
  · intro h
    simp [build_windows_wheel, h]

/-- Witness for C6: a mismatching direct checksum fails the build before any
archive exists; a matching one builds the archive; no checksum at all returns
the data unverified. -/
theorem C6_checksum_gate_witness :
    build_windows_wheel (fun _ => "aa") (fun _ => []) "1.0" "win_amd64" [1]
        none (some "zz")
      = Except.error ("SHA256 mismatch! Expected " ++ "zz" ++ ", got " ++ "aa") ∧
    build_windows_wheel (fun _ => "aa") (fun _ => []) "1.0" "win_amd64" [1]
        none (some "AA")
      = Except.ok (write_git_wheel_zip "1.0" "win_amd64"
          ((fun _ : Bytes => ([] : List SrcZipEntry)) [1])) ∧
    download_with_checksum (fun _ => "aa") [1] none none = DlResult.ok [1] :=
  ⟨(C6_checksum_gate (fun _ => "aa") (fun _ => []) "1.0" "win_amd64" [1]
      none (some "zz")).2.2.1 "zz" "aa" (by decide),
   (C6_checksum_gate (fun _ => "aa") (fun _ => []) "1.0" "win_amd64" [1]
      none (some "AA")).2.2.2 (by decide),
   (C6_checksum_gate (fun _ => "aa") (fun _ => []) "1.0" "win_amd64" [1]
      none none).2.1 rfl rfl⟩

/-- C8 counterexample: the zip reader excludes only name-based directory
entries, so an entry whose attribute word carries the symlink file type
(`0xA000`, here full mode `0xA1FF`) is yielded even though it is not a
regular-file entry — refuting "only regular files are surfaced; no symlink
appears" for the zip reader. -/
theorem C8_counterexample :
    iter_zip_contents [⟨"lib/link", 0xA1FF <<< 16, [103]⟩]
      = [("lib/link", 0xA1FF, [103])] ∧
    0xA1FF &&& 0xF000 = 0xA000 ∧
    ¬ (0xA1FF &&& 0xF000 = S_IFREG) := by
  refine ⟨by decide, by decide, by decide⟩

/-- C8 amended: both readers drop directory entries (zip: trailing-slash
names; tar: the `isreg` check); the tar reader yields only regular-file
members; the zip reader yields every non-directory entry — including
symlink-typed ones — passing its attribute word through. -/
theorem C8_amended_readers (zs : List SrcZipEntry) (ts : List TarEntry) :
    (∀ x ∈ iter_zip_contents zs, ∃ e ∈ zs, zipIsDir e = false ∧
      x = (e.filename, e.external_attr >>> 16, e.data)) ∧
    (∀ y ∈ iter_tar_contents ts, ∃ e ∈ ts, e.typ = TarKind.reg ∧
      y = (e.name, e.mode ||| (1 <<< 15), e.data)) :=
  ⟨iter_zip_mem zs, iter_tar_mem ts⟩

/-- Witness for C8 amended at concrete archives. -/
theorem C8_amended_readers_witness :
    (∃ e ∈ [(⟨"lib/link", 0xA1FF <<< 16, [103]⟩ : SrcZipEntry)],
      zipIsDir e = false ∧
      ("lib/link", 0xA1FF, ([103] : Bytes))
        = (e.filename, e.external_attr >>> 16, e.data)) ∧
    (∃ e ∈ [(⟨"bin/git", 0o600, TarKind.reg, [7]⟩ : TarEntry)],
      e.typ = TarKind.reg ∧
      ("bin/git", 0o600 ||| (1 <<< 15), ([7] : Bytes))
        = (e.name, e.mode ||| (1 <<< 15), e.data)) :=
  ⟨(C8_amended_readers [⟨"lib/link", 0xA1FF <<< 16, [103]⟩]
      [⟨"bin/git", 0o600, TarKind.reg, [7]⟩]).1 _ (by decide),
   (C8_amended_readers [⟨"lib/link", 0xA1FF <<< 16, [103]⟩]
      [⟨"bin/git", 0o600, TarKind.reg, [7]⟩]).2 _ (by decide)⟩

/-- C9: tar compression is auto-detected from the leading bytes alone (gzip
`1f 8b`, bzip2 `BZh`, xz `fd 37 7a 58 5a 00`, else uncompressed), and every
yielded tar entry's permission word is the stored mode or-ed with the
regular-file flag `1 << 15`. -/
theorem C9_tar_detection_and_mode (data : Bytes) (ts : List TarEntry) :
    (data.take 2 = [0x1f, 0x8b] → detect_tar_mode data = TarMode.gz) ∧
    (data.take 3 = [0x42, 0x5a, 0x68] → detect_tar_mode data = TarMode.bz2) ∧
    (data.take 6 = [0xfd, 0x37, 0x7a, 0x58, 0x5a, 0x00] →
      detect_tar_mode data = TarMode.xz) ∧
    (data.take 2 ≠ [0x1f, 0x8b] → data.take 3 ≠ [0x42, 0x5a, 0x68] →
      data.take 6 ≠ [0xfd, 0x37, 0x7a, 0x58, 0x5a, 0x00] →
      detect_tar_mode data = TarMode.plain) ∧
    (∀ y ∈ iter_tar_contents ts, ∃ e ∈ ts,
      y.2.1 = e.mode ||| (1 <<< 15)) := by
  refine ⟨?_, ?_, ?_, ?_, ?_⟩
  · intro h
    simp [detect_tar_mode, h]
  · intro h
    have h2 : data.take 2 = [0x42, 0x5a] := by
      have := List.take_take 2 3 data
      norm_num at this
      rw [← this, h]
      rfl
    simp [detect_tar_mode, h, h2]
  · intro h
    have h2 : data.take 2 = [0xfd, 0x37] := by
      have := List.take_take 2 6 data
      norm_num at this
      rw [← this, h]
      rfl
    have h3 : data.take 3 = [0xfd, 0x37, 0x7a] := by
      have := List.take_take 3 6 data
      norm_num at this
      rw [← this, h]
      rfl
    simp [detect_tar_mode, h, h2, h3]
  · intro h1 h2 h3
    simp [detect_tar_mode, h1, h2, h3]
  · intro y hy
    obtain ⟨e, he, _, hEq⟩ := iter_tar_mem ts y hy
    exact ⟨e, he, by rw [hEq]⟩

/-- Witness for C9 at concrete payloads and a concrete tar member. -/
theorem C9_tar_detection_and_mode_witness :
    detect_tar_mode [0x1f, 0x8b, 0] = TarMode.gz ∧
    detect_tar_mode [0x42, 0x5a, 0x68, 1] = TarMode.bz2 ∧
    detect_tar_mode [0xfd, 0x37, 0x7a, 0x58, 0x5a, 0x00, 2] = TarMode.xz ∧
    detect_tar_mode [0] = TarMode.plain ∧
    (∃ e ∈ [(⟨"a", 0o600, TarKind.reg, []⟩ : TarEntry)],
      (("a", 0o600 ||| (1 <<< 15), ([] : Bytes)) :
          String × Nat × Bytes).2.1 = e.mode ||| (1 <<< 15)) :=
  ⟨(C9_tar_detection_and_mode [0x1f, 0x8b, 0] []).1 (by decide),
   (C9_tar_detection_and_mode [0x42, 0x5a, 0x68, 1] []).2.1 (by decide),
   (C9_tar_detection_and_mode [0xfd, 0x37, 0x7a, 0x58, 0x5a, 0x00, 2] []).2.2.1
     (by decide),
   (C9_tar_detection_and_mode [0] []).2.2.2.1 (by decide) (by decide)
     (by decide),
   (C9_tar_detection_and_mode [] [⟨"a", 0o600, TarKind.reg, []⟩]).2.2.2.2
     ("a", 0o600 ||| (1 <<< 15), []) (by decide)⟩

/-- C10: when the expected checksum comes from the companion checksum URL,
only the first whitespace-separated token of the body is used (lowercased), so
a bare-hash body and a `hash  filename` body with the same first token verify
identically; text after the first token never affects the result. -/
theorem C10_checksum_first_token (sha256hex : Bytes → String) (data : Bytes)
    (exp : Option String) (b1 b2 tok : String)
    (hexp : pyTruthy exp = false)
    (h1 : (pySplit b1).head? = some tok) (h2 : (pySplit b2).head? = some tok) :
    expected_of (some b1) exp = Except.ok (pyLower tok) ∧
    download_with_checksum sha256hex data (some b1) exp =
      download_with_checksum sha256hex data (some b2) exp := by
  have e1 := expected_of_token b1 tok exp hexp h1
  have e2 := expected_of_token b2 tok exp hexp h2
  refine ⟨e1, ?_⟩
  simp [download_with_checksum, e1, e2]

/-- Witness for C10: a bare hash and a `hash  filename` checksum body give the
same verification outcome. -/
theorem C10_checksum_first_token_witness :
    expected_of (some "deadbeef") none = Except.ok (pyLower "deadbeef") ∧
    download_with_checksum (fun _ => "deadbeef") [7] (some "deadbeef") none =
      download_with_checksum (fun _ => "deadbeef") [7]
        (some "deadbeef  MinGit-2.47.1-64-bit.zip") none :=
  C10_checksum_first_token (fun _ => "deadbeef") [7] none "deadbeef"
    "deadbeef  MinGit-2.47.1-64-bit.zip" "deadbeef" rfl (by decide) (by decide)

/-- C1 counterexample: source entries are keyed by freshly constructed
`ZipInfo` descriptors (identity-keyed), so two zip-source entries with the
same name are never merged: the output archive holds the virtual path
`python_git_bin/git/a` twice, with both payloads present — refuting both the
uniqueness of virtual paths and last-write-wins overwriting for source
entries. -/
theorem C1_counterexample :
    ¬ (((write_git_wheel_zip "1.0" "win_amd64"
        [⟨"a", 0, [1]⟩, ⟨"a", 0, [2]⟩]).map WrittenEntry.filename).Nodup) ∧
    ((write_git_wheel_zip "1.0" "win_amd64"
        [⟨"a", 0, [1]⟩, ⟨"a", 0, [2]⟩]).filterMap fun w =>
          if w.filename = "python_git_bin/git/a" then some w.data else none)
      = [[1], [2]] :=
  ⟨by decide, by decide⟩

/-- C1 amended: in a local-directory build over a tree with distinct relative
paths, every virtual path of the output archive is unique, and the two
synthesized launcher files appear in the output with their synthesized
contents (tree entries live under the `git/` sub-namespace and the metadata
entries under the `.dist-info` namespace, so neither can collide with the
launcher paths). -/
theorem C1_amended_unique_paths (version python_platform : String)
    (tree : List FSEntry) (h : (tree.map FSEntry.rel_path).Nodup) :
    ((write_git_wheel_local version python_platform tree).map
        WrittenEntry.filename).Nodup ∧
    ("python_git_bin/__init__.py", strBytes INIT_PY) ∈
      ((write_git_wheel_local version python_platform tree).map
        fun w => (w.filename, w.data)) ∧
    ("python_git_bin/__main__.py", strBytes MAIN_PY) ∈
      ((write_git_wheel_local version python_platform tree).map
        fun w => (w.filename, w.data)) := by
  rw [write_git_wheel_local_eq]
  refine ⟨?_, ?_, ?_⟩
  · rw [write_wheel_file_filenames]
    rw [base_contents_eq]
    simp only [List.map_append, List.map_cons, List.map_nil, keyFilename]
    rw [List.nodup_append, List.nodup_append]
    refine ⟨⟨by decide, itemsFrom_filenames_nodup tree h, ?_⟩, ?_, ?_⟩
    · intro f hfA hfB
      have hA : f = "python_git_bin/__init__.py" ∨
          f = "python_git_bin/__main__.py" := by simpa using hfA
      obtain ⟨rel, hrel⟩ := itemsFrom_filenames_mem tree f hfB
      rcases hA with hA | hA
      · exact tree_path_ne_init rel (hrel.symm.trans hA)
      · exact tree_path_ne_main rel (hrel.symm.trans hA)
    · refine List.nodup_cons.mpr ⟨?_, List.nodup_cons.mpr
        ⟨?_, List.nodup_singleton _⟩⟩
      · intro hmem
        rcases List.mem_cons.mp hmem with hEq | hEq
        · exact @str_ne_of_suffix_ne (dist_info_name "python_git_bin" version)
            "/entry_points.txt" "/METADATA" (by decide) hEq
        · rw [List.mem_singleton] at hEq
          exact @str_ne_of_suffix_ne (dist_info_name "python_git_bin" version)
            "/entry_points.txt" "/WHEEL" (by decide) hEq
      · intro hmem
        rw [List.mem_singleton] at hmem
        exact @str_ne_of_suffix_ne (dist_info_name "python_git_bin" version)
          "/METADATA" "/WHEEL" (by decide) hmem
    · intro f hfAB hfC
      have hC : f = dist_info_name "python_git_bin" version
            ++ "/entry_points.txt" ∨
          f = dist_info_name "python_git_bin" version ++ "/METADATA" ∨
          f = dist_info_name "python_git_bin" version ++ "/WHEEL" := by
        simpa using hfC
      rcases List.mem_append.mp hfAB with hfA | hfB
      · have hA : f = "python_git_bin/__init__.py" ∨
            f = "python_git_bin/__main__.py" := by simpa using hfA
        have hpkg : f = "python_git_bin/" ++ "__init__.py" ∨
            f = "python_git_bin/" ++ "__main__.py" := by
          rcases hA with hA | hA
          · exact .inl (hA.trans rfl)
          · exact .inr (hA.trans rfl)
        rcases hpkg with hp | hp <;> rcases hC with hc | hc | hc
        · exact distinfo_ne_pkgpath version "/entry_points.txt" "__init__.py"
            (hc.symm.trans hp)
        · exact distinfo_ne_pkgpath version "/METADATA" "__init__.py"
            (hc.symm.trans hp)
        · exact distinfo_ne_pkgpath version "/WHEEL" "__init__.py"
            (hc.symm.trans hp)
        · exact distinfo_ne_pkgpath version "/entry_points.txt" "__main__.py"
            (hc.symm.trans hp)
        · exact distinfo_ne_pkgpath version "/METADATA" "__main__.py"
            (hc.symm.trans hp)
        · exact distinfo_ne_pkgpath version "/WHEEL" "__main__.py"
            (hc.symm.trans hp)
      · obtain ⟨rel, hrel⟩ := itemsFrom_filenames_mem tree f hfB
        have htree : f = "python_git_bin/" ++ ("git/" ++ rel) :=
          hrel.trans (tree_path_eq rel)
        rcases hC with hc | hc | hc
        · exact distinfo_ne_pkgpath version "/entry_points.txt" ("git/" ++ rel)
            (hc.symm.trans htree)
        · exact distinfo_ne_pkgpath version "/METADATA" ("git/" ++ rel)
            (hc.symm.trans htree)
        · exact distinfo_ne_pkgpath version "/WHEEL" ("git/" ++ rel)
            (hc.symm.trans htree)
  · simp only [write_wheel_file, List.map_map]
    apply List.mem_map.mpr
    refine ⟨(.str "python_git_bin/__init__.py", strBytes INIT_PY), ?_, rfl⟩
    rw [base_contents_eq]
    simp
  · simp only [write_wheel_file, List.map_map]
    apply List.mem_map.mpr
    refine ⟨(.str "python_git_bin/__main__.py", strBytes MAIN_PY), ?_, rfl⟩
    rw [base_contents_eq]
    simp

/-- Witness for C1 amended at the spec's end-to-end example tree. -/
theorem C1_amended_unique_paths_witness :
    ((([⟨"bin/git", FSKind.file 0o644 [88]⟩,
        ⟨"bin/git-remote-https", FSKind.symlink "git"⟩] : List FSEntry).map
          FSEntry.rel_path).Nodup) ∧
    (((write_git_wheel_local "2.47.1.20260101"
          "manylinux_2_17_x86_64.musllinux_1_1_x86_64"
          [⟨"bin/git", FSKind.file 0o644 [88]⟩,
           ⟨"bin/git-remote-https", FSKind.symlink "git"⟩]).map
        WrittenEntry.filename).Nodup ∧
      ("python_git_bin/__init__.py", strBytes INIT_PY) ∈
        ((write_git_wheel_local "2.47.1.20260101"
            "manylinux_2_17_x86_64.musllinux_1_1_x86_64"
            [⟨"bin/git", FSKind.file 0o644 [88]⟩,
             ⟨"bin/git-remote-https", FSKind.symlink "git"⟩]).map
          fun w => (w.filename, w.data)) ∧
      ("python_git_bin/__main__.py", strBytes MAIN_PY) ∈
        ((write_git_wheel_local "2.47.1.20260101"
            "manylinux_2_17_x86_64.musllinux_1_1_x86_64"
            [⟨"bin/git", FSKind.file 0o644 [88]⟩,
             ⟨"bin/git-remote-https", FSKind.symlink "git"⟩]).map
          fun w => (w.filename, w.data))) :=
  ⟨by decide,
   C1_amended_unique_paths "2.47.1.20260101"
     "manylinux_2_17_x86_64.musllinux_1_1_x86_64"
     [⟨"bin/git", FSKind.file 0o644 [88]⟩,
      ⟨"bin/git-remote-https", FSKind.symlink "git"⟩] (by decide)⟩

/-- C2: the build writes archive entries in filesystem enumeration order
(`rglob` output is never sorted), so two walks of the same tree that
enumerate its entries in different orders — byte-identical input, permuted
enumeration — produce different output archives, contradicting the claimed
order-independence of the reproducible-build property. -/
theorem C2_enumeration_order_dependence :
    List.Perm
        [(⟨"bin/a", FSKind.file 0o644 [1]⟩ : FSEntry),
         ⟨"bin/b", FSKind.file 0o644 [2]⟩]
        [⟨"bin/b", FSKind.file 0o644 [2]⟩, ⟨"bin/a", FSKind.file 0o644 [1]⟩] ∧
    ((write_git_wheel_local "2.47.1.20260101"
        "manylinux_2_17_x86_64.musllinux_1_1_x86_64"
        [⟨"bin/a", FSKind.file 0o644 [1]⟩,
         ⟨"bin/b", FSKind.file 0o644 [2]⟩]).map WrittenEntry.filename
      ≠ (write_git_wheel_local "2.47.1.20260101"
        "manylinux_2_17_x86_64.musllinux_1_1_x86_64"
        [⟨"bin/b", FSKind.file 0o644 [2]⟩,
         ⟨"bin/a", FSKind.file 0o644 [1]⟩]).map WrittenEntry.filename) ∧
    write_git_wheel_local "2.47.1.20260101"
        "manylinux_2_17_x86_64.musllinux_1_1_x86_64"
        [⟨"bin/a", FSKind.file 0o644 [1]⟩,
         ⟨"bin/b", FSKind.file 0o644 [2]⟩]
      ≠ write_git_wheel_local "2.47.1.20260101"
        "manylinux_2_17_x86_64.musllinux_1_1_x86_64"
        [⟨"bin/b", FSKind.file 0o644 [2]⟩,
         ⟨"bin/a", FSKind.file 0o644 [1]⟩] := by
  refine ⟨by decide, by decide, ?_⟩
  intro hEq
  have h2 := congrArg (List.map WrittenEntry.filename) hEq
  revert h2
  decide
